import Mathlib

/-!
Shallow embedding of the RackOptix optimization core
(`backend/src/algorithms/{aisle_optimizer,elevation_optimizer,slotting_optimizer}.py`
and `backend/src/core/engine.py`) together with theorems settling the
spec claims about it.

Conventions of the embedding:
* Python floats are modelled as `ℚ` (the numeric literals in the source are
  exactly representable, and the claims are about exact arithmetic facts).
* Python dictionaries used as option maps are modelled as structures with
  `Option`-valued fields; absent keys are `none` and the `dict.get` defaults
  are applied by accessor functions, mirroring the source call sites.
* The external CP/MIP solvers are modelled by their constraint systems: the
  result-extraction code is embedded as a function of an arbitrary variable
  assignment satisfying the embedded constraints, since the solver returns
  some such assignment whenever it reports optimal or feasible.
* The call `np.random.random() < 0.3` inside
  `AisleWidthOptimizer._check_intersection` is modelled by a stream
  `draws : ℕ → Bool` giving the outcome of the k-th call, consumed in the
  order the source performs the calls.
-/

namespace RackOptix

/-- Truncation toward zero, the behaviour of Python `int(...)` on a float. -/
def pyInt (q : ℚ) : ℤ :=
  if q < 0 then -⌊-q⌋ else ⌊q⌋

/-- Round half to even, the behaviour of Python builtin `round(...)` on a float. -/
def pyRound (q : ℚ) : ℤ :=
  let f : ℤ := ⌊q⌋
  let frac : ℚ := q - f
  if frac < 1/2 then f
  else if 1/2 < frac then f + 1
  else if f % 2 = 0 then f else f + 1

/-- Maximum of a list of rationals, Python `max(xs)` on a non-empty list
(`0` on the empty list, matching the guarded uses `max(xs) if xs else 0`). -/
def maxQ : List ℚ → ℚ
  | [] => 0
  | x :: xs => xs.foldl max x

/-- Equipment model (`models/equipment.py`), restricted to the fields the
optimization core reads. -/
structure Equipment where
  reach_height : ℚ
  min_aisle_width : ℚ
  max_aisle_width : ℚ
  turning_radius : ℚ
  lift_capacity : ℚ
deriving Repr, DecidableEq

/-- Product model (`models/product.py`), restricted to the fields the
optimization core reads.  `velocity_class` is kept as a string because the
slotting heuristic sorts on the raw string value. -/
structure Product where
  id : String
  length : ℚ
  width : ℚ
  height : ℚ
  weight : ℚ
  velocity_class : String
  monthly_throughput : ℚ
deriving Repr, DecidableEq

/-- Contents of `Rack.configuration` read or written by the core: the other
keys of the dictionary are never consulted. -/
structure RackConfig where
  beam_levels : Option ℤ := none
  beam_elevations : Option (List ℚ) := none
deriving Repr, DecidableEq

/-- Rack model (`models/layout.py`), restricted to the fields the optimization
core reads. -/
structure Rack where
  id : String
  rack_type_id : String
  bays : ℕ
  height : ℚ
  configuration : RackConfig := {}
deriving Repr, DecidableEq

/-- Aisle model (`models/layout.py`).  `properties` is the string-valued part
of the properties dictionary (the core only reads the `type` key). -/
structure Aisle where
  id : String
  width : ℚ := 0
  properties : List (String × String) := []
deriving Repr, DecidableEq

/-- Layout model (`models/layout.py`), restricted to the fields the
optimization core reads. -/
structure Layout where
  id : String
  racks : List Rack := []
  aisles : List Aisle := []
deriving Repr, DecidableEq

/-- The expression `aisle.properties.get("type", "standard") if aisle.properties
else "standard"`: both a missing key and an empty (falsy) dictionary yield
`"standard"`. -/
def aisleTypeOf (a : Aisle) : String :=
  match a.properties.lookup "type" with
  | some t => t
  | none => "standard"

/-! ## Aisle Width Optimizer (`algorithms/aisle_optimizer.py`) -/

/-- Option dictionary accepted by `AisleWidthOptimizer`; absent keys are
`none`, defaults are applied at the read sites below. -/
structure AisleConstraints where
  min_aisle_width : Option ℚ := none
  max_aisle_width : Option ℚ := none
  aisle_width_increment : Option ℚ := none
  optimize_for_density : Option Bool := none
  optimize_for_accessibility : Option Bool := none
deriving Repr, DecidableEq

/-- The read `constraints.get("min_aisle_width", equipment.min_aisle_width)`. -/
def AisleConstraints.minW (c : AisleConstraints) (e : Equipment) : ℚ :=
  c.min_aisle_width.getD e.min_aisle_width

/-- The read `constraints.get("max_aisle_width", equipment.max_aisle_width)`. -/
def AisleConstraints.maxW (c : AisleConstraints) (e : Equipment) : ℚ :=
  c.max_aisle_width.getD e.max_aisle_width

/-- The read `constraints.get("aisle_width_increment", 0.5)`. -/
def AisleConstraints.inc (c : AisleConstraints) : ℚ :=
  c.aisle_width_increment.getD (1/2)

/-- The read `constraints.get("optimize_for_density", True)`. -/
def AisleConstraints.forDensity (c : AisleConstraints) : Bool :=
  c.optimize_for_density.getD true

/-- One entry of the optimizer output: `{"id": aisle_id, "width": width_feet}`. -/
structure AisleEntry where
  id : String
  width : ℚ
deriving Repr, DecidableEq

/-- `AisleWidthOptimizer._get_adjacent_racks` for one aisle: each rack is kept
when the corresponding `_check_intersection` call (modelled by `draws k` for
the k-th call overall) returns true.  Returns the adjacent racks together
with the next unconsumed draw index. -/
def getAdjacentRacks (draws : ℕ → Bool) : List Rack → ℕ → List Rack × ℕ
  | [], k => ([], k)
  | r :: rs, k =>
    let rest := getAdjacentRacks draws rs (k + 1)
    (if draws k then r :: rest.1 else rest.1, rest.2)

/-- Width adjustment for one adjacent rack inside
`AisleWidthOptimizer._solve_with_heuristic`. -/
def rackTypeAdjust (b : ℚ) (r : Rack) : ℚ :=
  if r.rack_type_id = "drive-in" ∨ r.rack_type_id = "push-back" then b + 1
  else if r.rack_type_id = "pallet-flow" then b + 1/2
  else b

/-- Per-aisle width computed by `AisleWidthOptimizer._solve_with_heuristic`,
given the adjacent racks already determined. -/
def aisleHeuristicWidth (minW maxW inc : ℚ) (forDensity : Bool)
    (adjacent : List Rack) (a : Aisle) : ℚ :=
  let t := aisleTypeOf a
  let base0 : ℚ :=
    if t = "main" then minW + 2
    else if t = "cross" then minW + 1
    else if t = "staging" then minW + 3
    else minW + 1
  let base1 := adjacent.foldl rackTypeAdjust base0
  let base2 := if forDensity then max minW (base1 - 1/2) else min maxW (base1 + 1)
  let w := (pyRound (base2 / inc) : ℚ) * inc
  max minW (min maxW w)

/-- Loop body of `AisleWidthOptimizer._solve_with_heuristic`, threading the
draw index consumed by the adjacency checks across aisles. -/
def aisleHeuristicGo (racks : List Rack) (minW maxW inc : ℚ) (forDensity : Bool)
    (draws : ℕ → Bool) : List Aisle → ℕ → List AisleEntry
  | [], _ => []
  | a :: rest, k =>
    let adj := getAdjacentRacks draws racks k
    ⟨a.id, aisleHeuristicWidth minW maxW inc forDensity adj.1 a⟩ ::
      aisleHeuristicGo racks minW maxW inc forDensity draws rest adj.2

/-- `AisleWidthOptimizer._solve_with_heuristic`. -/
def aisleSolveHeuristic (layout : Layout) (e : Equipment) (c : AisleConstraints)
    (draws : ℕ → Bool) : List AisleEntry :=
  aisleHeuristicGo layout.racks (c.minW e) (c.maxW e) c.inc c.forDensity draws
    layout.aisles 0

/-- Per-aisle-type hard floors added by `AisleWidthOptimizer._solve_with_cp`
(in inches). -/
def cpAisleTypeFloor (minI : ℤ) (a : Aisle) (w : ℤ) : Prop :=
  (aisleTypeOf a = "main" → minI + 12 ≤ w) ∧
  (aisleTypeOf a = "cross" → minI ≤ w) ∧
  (aisleTypeOf a = "staging" → minI + 24 ≤ w)

/-- Per-adjacent-rack hard floors added by `AisleWidthOptimizer._solve_with_cp`
(in inches). -/
def cpAisleRackFloor (minI : ℤ) (r : Rack) (w : ℤ) : Prop :=
  (r.rack_type_id = "drive-in" ∨ r.rack_type_id = "push-back" → minI + 12 ≤ w) ∧
  (r.rack_type_id = "pallet-flow" → minI + 6 ≤ w)

/-- Constraint system built by `AisleWidthOptimizer._solve_with_cp`: one
integer variable per aisle id (a dictionary keyed by id, so `w` is a function
of the id), bounded domain, multiple-of-increment, and the hard floors.
`adj` gives the adjacency relation the (random) geometry stub returned. -/
def cpAisleFeasible (layout : Layout) (minI maxI incI : ℤ)
    (adj : Aisle → List Rack) (w : String → ℤ) : Prop :=
  ∀ a ∈ layout.aisles,
    minI ≤ w a.id ∧ w a.id ≤ maxI ∧ w a.id % incI = 0 ∧
    cpAisleTypeFloor minI a (w a.id) ∧
    ∀ r ∈ adj a, cpAisleRackFloor minI r (w a.id)

/-- Result extraction of `AisleWidthOptimizer._solve_with_cp`: convert each
solver value back to feet (`width_inches / 12.0`), one entry per aisle. -/
def cpAisleExtract (layout : Layout) (w : String → ℤ) : List AisleEntry :=
  layout.aisles.map (fun a => ⟨a.id, (w a.id : ℚ) / 12⟩)

/-- Outcomes of `AisleWidthOptimizer.optimize`: either the CP path returned a
feasible/optimal assignment of its model, or any exception led to the
heuristic path (with some stream of geometry-stub draws). -/
def AisleOutcome (layout : Layout) (e : Equipment) (c : AisleConstraints)
    (res : List AisleEntry) : Prop :=
  (∃ w : String → ℤ, ∃ adj : Aisle → List Rack,
      cpAisleFeasible layout (pyInt (c.minW e * 12)) (pyInt (c.maxW e * 12))
        (pyInt (c.inc * 12)) adj w ∧
      res = cpAisleExtract layout w) ∨
  (∃ draws : ℕ → Bool, res = aisleSolveHeuristic layout e c draws)

/-! ## Elevation Profile Optimizer (`algorithms/elevation_optimizer.py`) -/

/-- Option dictionary accepted by `ElevationProfileOptimizer`; the values of
the default dictionary built when `constraints is None` coincide with the
`dict.get` defaults at every read site, so `{}` also models a `None` call. -/
structure ElevationConstraints where
  min_clearance : Option ℚ := none
  min_beam_spacing : Option ℚ := none
  max_levels : Option ℤ := none
deriving Repr, DecidableEq

/-- `ElevationProfileOptimizer._solve_with_heuristic`.  Note the source
divides `min_clearance` and `min_beam_spacing` by 12 but adds the result to
the raw product heights. -/
def elevationHeuristic (product_heights : List ℚ) (max_height : ℚ)
    (c : ElevationConstraints) : List ℚ :=
  let min_clearance := c.min_clearance.getD 6 / 12
  let min_beam_spacing := c.min_beam_spacing.getD 12 / 12
  let max_levels := c.max_levels.getD 4
  let max_product_height := maxQ product_heights
  let level_height := max (max_product_height + min_clearance) min_beam_spacing
  let num_levels := min max_levels (pyInt (max_height / level_height))
  (List.range (num_levels + 1).toNat).map (fun i => (i : ℚ) * level_height)

/-- `ElevationProfileOptimizer.optimize` when it ends in the heuristic
fallback: empty product list short-circuits to `[]`, otherwise the heights
and the equipment reach height are passed down. -/
def elevationOptimizeHeuristicPath (products : List Product) (e : Equipment)
    (c : ElevationConstraints) : List ℚ :=
  if products = [] then []
  else elevationHeuristic (products.map Product.height) e.reach_height c

/-! ## Slotting Optimizer (`algorithms/slotting_optimizer.py`) -/

/-- Option dictionary accepted by `SlottingOptimizer`. -/
structure SlottingConstraints where
  velocity_weighting : Option ℚ := none
  accessibility_weighting : Option ℚ := none
  optimize_for_throughput : Option Bool := none
  respect_product_dimensions : Option Bool := none
  respect_weight_limits : Option Bool := none
deriving Repr, DecidableEq

/-- Storage location as built by `SlottingOptimizer._get_all_locations`: the
`dimensions` dictionary is flattened into three fields and the `properties`
dictionary into the three keys the optimizer ever reads (`rack_type`,
`accessibility`, `weight_limit`), each `Option`-valued where the source
checks key membership. -/
structure Location where
  id : String
  rack_id : String
  level : ℕ
  position : ℕ
  elevation : ℚ
  dim_length : ℚ
  dim_width : ℚ
  dim_height : ℚ
  prop_rack_type : String
  prop_accessibility : Option ℚ
  prop_weight_limit : Option ℚ
deriving Repr, DecidableEq

/-- `SlottingOptimizer._calculate_location_accessibility`. -/
def calcLocationAccessibility (rack : Rack) (bay level : ℕ) : ℚ :=
  let base : ℚ :=
    if rack.rack_type_id = "selective" then 9/10
    else if rack.rack_type_id = "drive-in" ∨ rack.rack_type_id = "push-back" then 7/10
    else if rack.rack_type_id = "pallet-flow" then 8/10
    else 3/4
  let level_factor : ℚ := 1 - ((level : ℚ) / 5) * (8/10)
  let bay_position : ℚ := (bay : ℚ) / ((max 1 ((rack.bays : ℤ) - 1) : ℤ) : ℚ)
  let bay_factor : ℚ := 1 - (2/10) * (1 - 2 * |bay_position - 1/2|)
  base * level_factor * bay_factor

/-- Locations generated for one rack inside
`SlottingOptimizer._get_all_locations`: one per bay and level, with the
constant pallet dimensions 48×40×6, the elevation read from
`beam_elevations` when the index is in range (else `level * 6`), and no
`weight_limit` key. -/
def locationsOfRack (rack : Rack) : List Location :=
  let levels := (rack.configuration.beam_levels.getD 3).toNat
  (List.range rack.bays).flatMap (fun bay =>
    (List.range levels).map (fun level =>
      { id := "loc-" ++ rack.id ++ "-" ++ toString bay ++ "-" ++ toString level
        rack_id := rack.id
        level := level
        position := bay
        elevation :=
          match rack.configuration.beam_elevations with
          | some els => els.getD level ((level : ℚ) * 6)
          | none => (level : ℚ) * 6
        dim_length := 48
        dim_width := 40
        dim_height := 6
        prop_rack_type := rack.rack_type_id
        prop_accessibility := some (calcLocationAccessibility rack bay level)
        prop_weight_limit := none }))

/-- `SlottingOptimizer._get_all_locations`. -/
def getAllLocations (layout : Layout) : List Location :=
  layout.racks.flatMap locationsOfRack

/-- `SlottingOptimizer._product_fits_location`: the product always has the
three dimension attributes and the generated locations always carry a
dimensions dictionary, so only the final two-orientation check remains. -/
def productFitsLocation (p : Product) (loc : Location) : Bool :=
  decide ((p.length ≤ loc.dim_length ∧ p.width ≤ loc.dim_width ∧ p.height ≤ loc.dim_height) ∨
    (p.width ≤ loc.dim_length ∧ p.length ≤ loc.dim_width ∧ p.height ≤ loc.dim_height))

/-- `SlottingOptimizer._check_weight_limit`: products always have a `weight`
attribute; the check passes unless the location properties contain a
`weight_limit` key that the weight exceeds. -/
def checkWeightLimit (p : Product) (loc : Location) : Bool :=
  match loc.prop_weight_limit with
  | none => true
  | some lim => decide (p.weight ≤ lim)

/-- `SlottingOptimizer._calculate_accessibility_score`. -/
def calcAccessibilityScore (loc : Location) : ℚ :=
  match loc.prop_accessibility with
  | some a => a
  | none => max (1/10) (1 - ((loc.level : ℚ) / 5) * (9/10))

/-- Stable insertion step: `x` (earlier in the original list) is placed
before the first element whose key is not larger, so equal keys keep their
original order. -/
def insertDescBy (le : α → α → Bool) (x : α) : List α → List α
  | [] => [x]
  | y :: ys => if le y x then x :: y :: ys else y :: insertDescBy le x ys

/-- Stable descending sort, the behaviour of Python
`sorted(xs, key=k, reverse=True)`. -/
def sortDescBy (le : α → α → Bool) : List α → List α
  | [] => []
  | x :: xs => insertDescBy le x (sortDescBy le xs)

/-- One entry of the slotting output:
`{"product_id": ..., "location_id": ..., "quantity": 1}`. -/
structure Assignment where
  product_id : String
  location_id : String
  quantity : ℕ
deriving Repr, DecidableEq

/-- Inner loop of `SlottingOptimizer._solve_with_heuristic`: the first
location whose id is unused and (when `respect_dimensions`) fits the
product. -/
def findFirstLocation (respectDims : Bool) (p : Product) (used : List String) :
    List Location → Option Location
  | [] => none
  | loc :: rest =>
    if loc.id ∈ used then findFirstLocation respectDims p used rest
    else if respectDims ∧ ¬ productFitsLocation p loc then
      findFirstLocation respectDims p used rest
    else some loc

/-- Outer loop of `SlottingOptimizer._solve_with_heuristic`: assign each
product in order, remembering the used location ids; an unassignable product
is skipped (only a warning is logged). -/
def slottingAssignLoop (respectDims : Bool) (locs : List Location) :
    List Product → List String → List Assignment
  | [], _ => []
  | p :: ps, used =>
    match findFirstLocation respectDims p used locs with
    | some loc => ⟨p.id, loc.id, 1⟩ :: slottingAssignLoop respectDims locs ps (loc.id :: used)
    | none => slottingAssignLoop respectDims locs ps used

/-- Lexicographic comparison of character lists by code point, the semantics
of Python string `<`. -/
def pyCharListLt : List Char → List Char → Bool
  | [], [] => false
  | [], _ :: _ => true
  | _ :: _, [] => false
  | c :: cs, d :: ds => if c < d then true else if d < c then false else pyCharListLt cs ds

/-- Python string comparison `a < b`. -/
def pyStrLt (a b : String) : Bool :=
  pyCharListLt a.data b.data

/-- Sort key relation for products, `a.velocity_class ≤ b.velocity_class`:
Python compares the raw `velocity_class` strings, so the descending sort puts
the lexicographically largest class first. -/
def velocityKeyLe (a b : Product) : Bool :=
  ! pyStrLt b.velocity_class a.velocity_class

/-- Sort key relation for locations, accessibility score of `a` at most that
of `b`. -/
def accessKeyLe (a b : Location) : Bool :=
  decide (calcAccessibilityScore a ≤ calcAccessibilityScore b)

/-- `SlottingOptimizer._solve_with_heuristic`. -/
def slottingSolveHeuristic (layout : Layout) (products : List Product)
    (c : SlottingConstraints) : List Assignment :=
  let respectDims := c.respect_product_dimensions.getD true
  let locations := getAllLocations layout
  if locations = [] ∨ products = [] then []
  else
    let sorted_products := sortDescBy velocityKeyLe products
    let sorted_locations := sortDescBy accessKeyLe locations
    slottingAssignLoop respectDims sorted_locations sorted_products []

/-- Constraint system built by `SlottingOptimizer._solve_with_mip` (the
objective does not constrain feasibility and is omitted): every product in
exactly one location, every location holding at most one product, and the
pruning constraints `x[p][l] == 0` for failed dimension or weight checks
when the respective option is enabled. -/
def mipFeasible (products : List Product) (locs : List Location)
    (respectDims respectWeights : Bool) (x : ℕ → ℕ → Bool) : Prop :=
  (∀ p < products.length, (List.range locs.length).countP (fun l => x p l) = 1) ∧
  (∀ l < locs.length, (List.range products.length).countP (fun p => x p l) ≤ 1) ∧
  (respectDims = true → ∀ pe ∈ products.enum, ∀ le ∈ locs.enum,
    productFitsLocation pe.2 le.2 = false → x pe.1 le.1 = false) ∧
  (respectWeights = true → ∀ pe ∈ products.enum, ∀ le ∈ locs.enum,
    checkWeightLimit pe.2 le.2 = false → x pe.1 le.1 = false)

/-- Result extraction of `SlottingOptimizer._solve_with_mip`: the nested loop
over products and locations emitting one assignment per selected pair. -/
def mipExtract (products : List Product) (locs : List Location)
    (x : ℕ → ℕ → Bool) : List Assignment :=
  products.enum.flatMap (fun pe =>
    locs.enum.filterMap (fun le =>
      if x pe.1 le.1 then some ⟨pe.2.id, le.2.id, 1⟩ else none))

/-- Outcomes of `SlottingOptimizer.optimize`: the empty-input guard, a
feasible MIP solution extracted by the solver path, or the heuristic
fallback. -/
def SlottingOutcome (layout : Layout) (products : List Product)
    (c : SlottingConstraints) (res : List Assignment) : Prop :=
  ((getAllLocations layout = [] ∨ products = []) ∧ res = []) ∨
  (∃ x : ℕ → ℕ → Bool,
    mipFeasible products (getAllLocations layout)
      (c.respect_product_dimensions.getD true) (c.respect_weight_limits.getD true) x ∧
    res = mipExtract products (getAllLocations layout) x) ∨
  res = slottingSolveHeuristic layout products c

/-! ## Optimization Engine (`core/engine.py`) -/

/-- Errors that can surface from `OptimizationEngine.optimize_rack_elevations`:
the `ValueError` raised for an unknown rack id, or an exception escaping the
elevation optimizer itself. -/
inductive EngineError where
  | rackNotFound (rackId : String)
  | optimizerError (msg : String)
deriving Repr, DecidableEq

/-- Metrics returned by `OptimizationEngine._calculate_rack_metrics`. -/
structure RackMetrics where
  pallet_positions : ℚ
  storage_efficiency : ℚ
  vertical_utilization : ℚ
deriving Repr, DecidableEq

/-- Pallet positions of one rack, the per-rack-type multiplier shared by
`_calculate_layout_metrics` and `_calculate_rack_metrics`. -/
def rackPalletPositions (rack : Rack) : ℚ :=
  let levels : ℚ := ((rack.configuration.beam_levels.getD 3 : ℤ) : ℚ)
  let bays : ℚ := (rack.bays : ℚ)
  if rack.rack_type_id = "selective" then bays * levels
  else if rack.rack_type_id = "drive-in" then bays * levels * 4
  else if rack.rack_type_id = "push-back" then bays * levels * 3
  else if rack.rack_type_id = "pallet-flow" then bays * levels * 6
  else if rack.rack_type_id = "mobile" then bays * levels * (3/2)
  else bays * levels

/-- `OptimizationEngine._calculate_rack_metrics` (its `products` argument is
never read by the source). -/
def calculateRackMetrics (rack : Rack) : RackMetrics :=
  { pallet_positions := rackPalletPositions rack
    storage_efficiency := 85/100
    vertical_utilization :=
      match rack.configuration.beam_elevations with
      | some els =>
        if h : 1 < els.length then
          min (95/100) (els.getLast (by rintro rfl; simp at h) / rack.height)
        else 8/10
      | none => 8/10 }

/-- Writing `rack.configuration['beam_elevations'] = beam_elevations` on a
rack object. -/
def setBeamElevations (els : List ℚ) (r : Rack) : Rack :=
  { r with configuration := { r.configuration with beam_elevations := some els } }

/-- Mutation of the first rack whose id matches, the effect of updating the
object returned by `next((r for r in layout.racks if r.id == rack_id), None)`. -/
def updateFirstRack (rackId : String) (f : Rack → Rack) : List Rack → List Rack
  | [] => []
  | r :: rs => if r.id = rackId then f r :: rs else r :: updateFirstRack rackId f rs

/-- `OptimizationEngine.optimize_rack_elevations`.  `elevOpt` stands for the
`ElevationProfileOptimizer.optimize` call (`.error` modelling an exception
escaping it, which the engine does not catch).  The returned layout is the
post-call state of the `layout` argument; when an error is raised it is
unchanged because the raise happens before any mutation. -/
def engineOptimizeRackElevations (layout : Layout) (rackId : String)
    (products : List Product) (e : Equipment) (params : ElevationConstraints)
    (elevOpt : Rack → List Product → Equipment → ElevationConstraints → Except String (List ℚ)) :
    Except EngineError (String × List ℚ × RackMetrics) × Layout :=
  match layout.racks.find? (fun r => r.id = rackId) with
  | none => (.error (.rackNotFound rackId), layout)
  | some rack =>
    match elevOpt rack products e params with
    | .error m => (.error (.optimizerError m), layout)
    | .ok els =>
      let rack2 := setBeamElevations els rack
      (.ok (rackId, els, calculateRackMetrics rack2),
        { layout with racks := updateFirstRack rackId (setBeamElevations els) layout.racks })

/-- `OptimizationEngine._optimize_rack_elevations`, the per-rack stage of
`optimize_layout`, for a run in which every optimizer call returned
(`elevOpt` giving the returned elevations): each rack gets both
`beam_elevations` and `beam_levels = len(beam_elevations) - 1`. -/
def engineElevationStage (layout : Layout) (products : List Product)
    (e : Equipment) (params : ElevationConstraints)
    (elevOpt : Rack → List Product → Equipment → ElevationConstraints → List ℚ) : Layout :=
  { layout with racks := layout.racks.map (fun rack =>
      let els := elevOpt rack products e params
      { rack with configuration := { rack.configuration with
          beam_elevations := some els
          beam_levels := some ((els.length : ℤ) - 1) } }) }

/-- Layout-level metrics returned by
`OptimizationEngine._calculate_layout_metrics`. -/
structure LayoutMetrics where
  pallet_positions : ℚ
  storage_density : ℚ
  space_utilization : ℚ
  travel_distance : ℚ
  accessibility_score : ℚ
  throughput_capacity : ℚ
deriving Repr, DecidableEq

/-- `OptimizationEngine._calculate_layout_metrics`. -/
def calculateLayoutMetrics (layout : Layout) : LayoutMetrics :=
  let pallet_positions := layout.racks.foldl (fun acc r => acc + rackPalletPositions r) 0
  { pallet_positions := pallet_positions
    storage_density := min (95/100) (1/2 + (layout.racks.length : ℚ) * (5/100))
    space_utilization := min (9/10) (4/10 + (layout.racks.length : ℚ) * (4/100))
    travel_distance := max 20 (100 - (layout.aisles.length : ℚ) * 5)
    accessibility_score := min (95/100) (6/10 + (layout.aisles.length : ℚ) * (3/100))
    throughput_capacity := min 200 (50 + pallet_positions / 10) }

/-- Slotting-level metrics returned by
`OptimizationEngine._calculate_slotting_metrics` (its `layout` argument is
never read by the source). -/
structure SlottingMetrics where
  slotting_efficiency : ℚ
  travel_efficiency : ℚ
  pick_rate : ℚ
deriving Repr, DecidableEq

/-- `OptimizationEngine._calculate_slotting_metrics`. -/
def calculateSlottingMetrics (assignments : List Assignment)
    (products : List Product) : SlottingMetrics :=
  let slotting_efficiency :=
    min (95/100) (7/10 + (assignments.length : ℚ) / ((products.length : ℚ) * 2))
  let travel_efficiency := min (9/10) (6/10 + slotting_efficiency * (3/10))
  { slotting_efficiency := slotting_efficiency
    travel_efficiency := travel_efficiency
    pick_rate := 60 + travel_efficiency * 40 }

/-- Metrics dictionary returned by `OptimizationEngine.evaluate_layout`: the
layout metrics, updated with the slotting metrics when a non-empty product
list is passed (`None` and `[]` are both falsy and modelled by `[]`). -/
structure EvaluationMetrics where
  layoutMetrics : LayoutMetrics
  slottingMetrics : Option SlottingMetrics
deriving Repr, DecidableEq

/-- `OptimizationEngine.evaluate_layout`, returning the metrics together
with the post-call state of the `layout` argument (the source performs no
mutation and draws no randomness on this path, so the state is returned
as received and the metrics are a function of it alone). -/
def evaluateLayout (layout : Layout) (products : List Product) :
    EvaluationMetrics × Layout :=
  let metrics := calculateLayoutMetrics layout
  if products = [] then ({ layoutMetrics := metrics, slottingMetrics := none }, layout)
  else
    ({ layoutMetrics := metrics
       slottingMetrics := some (calculateSlottingMetrics [] products) }, layout)

/-! ## Helper lemmas -/

theorem pyInt_intCast (n : ℤ) : pyInt (n : ℚ) = n := by
  unfold pyInt
  split
  · rw [← Int.cast_neg, Int.floor_intCast]; omega
  · exact Int.floor_intCast n

/-- Clamping a multiple of the increment between two bounds that are
themselves multiples of the increment yields a bounded multiple of the
increment. -/
theorem clamp_valid (minW maxW inc w : ℚ) (hw : ∃ j : ℤ, w = (j : ℚ) * inc)
    (hle : minW ≤ maxW)
    (ha : ∃ k : ℤ, minW = (k : ℚ) * inc) (hb : ∃ k : ℤ, maxW = (k : ℚ) * inc) :
    minW ≤ max minW (min maxW w) ∧ max minW (min maxW w) ≤ maxW ∧
    ∃ k : ℤ, max minW (min maxW w) = (k : ℚ) * inc := by
  refine ⟨le_max_left _ _, max_le hle (min_le_left _ _), ?_⟩
  rcases le_total w maxW with h1 | h1
  · rw [min_eq_right h1]
    rcases le_total minW w with h2 | h2
    · rw [max_eq_right h2]; exact hw
    · rw [max_eq_left h2]; exact ha
  · rw [min_eq_left h1, max_eq_right hle]
    exact hb

/-- Per-aisle validity of the heuristic width: bounded and a multiple of the
increment whenever both bounds are themselves multiples of the increment. -/
theorem aisleHeuristicWidth_valid (minW maxW inc : ℚ) (fd : Bool)
    (adj : List Rack) (a : Aisle) (hle : minW ≤ maxW)
    (ha : ∃ k : ℤ, minW = (k : ℚ) * inc) (hb : ∃ k : ℤ, maxW = (k : ℚ) * inc) :
    minW ≤ aisleHeuristicWidth minW maxW inc fd adj a ∧
    aisleHeuristicWidth minW maxW inc fd adj a ≤ maxW ∧
    ∃ k : ℤ, aisleHeuristicWidth minW maxW inc fd adj a = (k : ℚ) * inc := by
  unfold aisleHeuristicWidth
  exact clamp_valid _ _ _ _ ⟨pyRound _, rfl⟩ hle ha hb

/-- Validity of the heuristic loop: the output lists the aisles in order and
every width is bounded and a multiple of the increment. -/
theorem aisleHeuristicGo_valid (racks : List Rack) (minW maxW inc : ℚ)
    (fd : Bool) (draws : ℕ → Bool) (hle : minW ≤ maxW)
    (ha : ∃ k : ℤ, minW = (k : ℚ) * inc) (hb : ∃ k : ℤ, maxW = (k : ℚ) * inc)
    (aisles : List Aisle) :
    ∀ k : ℕ,
      (aisleHeuristicGo racks minW maxW inc fd draws aisles k).map AisleEntry.id =
        aisles.map Aisle.id ∧
      ∀ entry ∈ aisleHeuristicGo racks minW maxW inc fd draws aisles k,
        minW ≤ entry.width ∧ entry.width ≤ maxW ∧
        ∃ j : ℤ, entry.width = (j : ℚ) * inc := by
  induction aisles with
  | nil => intro k; simp [aisleHeuristicGo]
  | cons a rest ih =>
    intro k
    obtain ⟨ih1, ih2⟩ := ih (getAdjacentRacks draws racks k).2
    refine ⟨by simpa [aisleHeuristicGo] using ih1, ?_⟩
    intro entry hentry
    rw [aisleHeuristicGo] at hentry
    rcases List.mem_cons.mp hentry with rfl | h
    · exact aisleHeuristicWidth_valid minW maxW inc fd _ a hle ha hb
    · exact ih2 entry h

/-! ## Claim C1 -/

/-- C1 (amended): for every layout and equipment, provided the effective
increment converts to a positive whole number of inches and the effective
bounds are integer multiples of the increment with `min ≤ max`, every entry
returned by `AisleWidthOptimizer.optimize` — by the CP path or the heuristic
fallback — satisfies `min_aisle_width ≤ width ≤ max_aisle_width` and is an
integer multiple of `aisle_width_increment`, and the result has exactly one
entry per aisle of the layout, in order. -/
theorem aisle_optimize_output_valid (layout : Layout) (e : Equipment)
    (c : AisleConstraints) (n : ℤ) (hn : 0 < n) (hinc : c.inc * 12 = (n : ℚ))
    (a b : ℤ) (hmin : c.minW e = (a : ℚ) * c.inc) (hmax : c.maxW e = (b : ℚ) * c.inc)
    (hle : c.minW e ≤ c.maxW e)
    (res : List AisleEntry) (hres : AisleOutcome layout e c res) :
    res.map AisleEntry.id = layout.aisles.map Aisle.id ∧
    ∀ entry ∈ res, c.minW e ≤ entry.width ∧ entry.width ≤ c.maxW e ∧
      ∃ k : ℤ, entry.width = (k : ℚ) * c.inc := by
  have h12 : (0 : ℚ) < 12 := by norm_num
  have hinc_eq : c.inc = (n : ℚ) / 12 := by
    field_simp
    linarith [hinc]
  rcases hres with ⟨w, adj, hfeas, rfl⟩ | ⟨draws, rfl⟩
  · have hminI : pyInt (c.minW e * 12) = a * n := by
      have : c.minW e * 12 = ((a * n : ℤ) : ℚ) := by
        rw [hmin, hinc_eq]; push_cast; field_simp
      rw [this, pyInt_intCast]
    have hmaxI : pyInt (c.maxW e * 12) = b * n := by
      have : c.maxW e * 12 = ((b * n : ℤ) : ℚ) := by
        rw [hmax, hinc_eq]; push_cast; field_simp
      rw [this, pyInt_intCast]
    have hincI : pyInt (c.inc * 12) = n := by
      rw [hinc, pyInt_intCast]
    constructor
    · simp [cpAisleExtract]
    · intro entry hent
      simp only [cpAisleExtract, List.mem_map] at hent
      obtain ⟨ai, hai, rfl⟩ := hent
      obtain ⟨h1, h2, h3, -, -⟩ := hfeas ai hai
      rw [hminI] at h1
      rw [hmaxI] at h2
      rw [hincI] at h3
      obtain ⟨k, hk⟩ := Int.dvd_of_emod_eq_zero h3
      have hc1 : (a : ℚ) * (n : ℚ) ≤ ((w ai.id : ℤ) : ℚ) := by
        exact_mod_cast h1
      have hc2 : ((w ai.id : ℤ) : ℚ) ≤ (b : ℚ) * (n : ℚ) := by
        exact_mod_cast h2
      refine ⟨?_, ?_, ⟨k, ?_⟩⟩
      · show c.minW e ≤ ((w ai.id : ℤ) : ℚ) / 12
        rw [hmin, hinc_eq]
        linarith
      · show ((w ai.id : ℤ) : ℚ) / 12 ≤ c.maxW e
        rw [hmax, hinc_eq]
        linarith
      · show ((w ai.id : ℤ) : ℚ) / 12 = (k : ℚ) * c.inc
        rw [hinc_eq, hk]
        push_cast
        ring
  · exact aisleHeuristicGo_valid layout.racks (c.minW e) (c.maxW e) c.inc
      c.forDensity draws hle ⟨a, hmin⟩ ⟨b, hmax⟩ layout.aisles 0

/-- Draw stream on which every `_check_intersection` call returns false. -/
def drawsFalse : ℕ → Bool := fun _ => false

/-- Draw stream on which every `_check_intersection` call returns true. -/
def drawsTrue : ℕ → Bool := fun _ => true

/-- Equipment of spec scenario A: `min_aisle_width=12`, `max_aisle_width=14`. -/
def exEquipA : Equipment :=
  { reach_height := 288, min_aisle_width := 12, max_aisle_width := 14
    turning_radius := 0, lift_capacity := 0 }

/-- Layout of spec scenario A: a single aisle of type `main`, no racks. -/
def exLayoutA : Layout :=
  { id := "layout-a", racks := [], aisles := [{ id := "a1", properties := [("type", "main")] }] }

/-- Equipment with a `max_aisle_width` that is not a multiple of the default
0.5 ft increment. -/
def exEquipFrac : Equipment :=
  { reach_height := 288, min_aisle_width := 12, max_aisle_width := 123/10
    turning_radius := 0, lift_capacity := 0 }

/-- Layout with a single aisle of type `staging`, no racks. -/
def exLayoutStaging : Layout :=
  { id := "layout-s", racks := []
    aisles := [{ id := "s1", properties := [("type", "staging")] }] }

/-- Layout with one standard aisle and one drive-in rack, whose (random)
adjacency decides the heuristic width. -/
def exLayoutC4 : Layout :=
  { id := "layout-r"
    racks := [{ id := "r1", rack_type_id := "drive-in", bays := 1, height := 20 }]
    aisles := [{ id := "a1" }] }

/-- Witness for `aisle_optimize_output_valid`: the heuristic output on the
scenario-A layout with default constraints. -/
theorem aisle_optimize_output_valid_witness :
    (aisleSolveHeuristic exLayoutA exEquipA {} drawsFalse).map AisleEntry.id =
      exLayoutA.aisles.map Aisle.id ∧
    ∀ entry ∈ aisleSolveHeuristic exLayoutA exEquipA {} drawsFalse,
      ({} : AisleConstraints).minW exEquipA ≤ entry.width ∧
      entry.width ≤ ({} : AisleConstraints).maxW exEquipA ∧
      ∃ k : ℤ, entry.width = (k : ℚ) * ({} : AisleConstraints).inc := by
  refine aisle_optimize_output_valid exLayoutA exEquipA {} 6 (by norm_num)
    (by norm_num [AisleConstraints.inc]) 24 28 ?_ ?_ ?_ _ (Or.inr ⟨drawsFalse, rfl⟩)
  · norm_num [AisleConstraints.minW, AisleConstraints.inc, exEquipA]
  · norm_num [AisleConstraints.maxW, AisleConstraints.inc, exEquipA]
  · norm_num [AisleConstraints.minW, AisleConstraints.maxW, exEquipA]

/-- Counterexample to C1 as stated: with equipment bounds 12 and 12.3 ft and
the default 0.5 ft increment, the heuristic produces a staging-aisle width of
12.3 ft (clamped to the upper bound), which is not an integer multiple of the
increment. -/
theorem aisle_optimize_increment_counterexample :
    AisleOutcome exLayoutStaging exEquipFrac {} [⟨"s1", 123/10⟩] ∧
    ¬ ∃ k : ℤ, (123/10 : ℚ) = (k : ℚ) * ({} : AisleConstraints).inc := by
  constructor
  · refine Or.inr ⟨drawsFalse, ?_⟩
    simp [aisleSolveHeuristic, aisleHeuristicGo, aisleHeuristicWidth, aisleTypeOf,
      exLayoutStaging, exEquipFrac, getAdjacentRacks, rackTypeAdjust, drawsFalse,
      AisleConstraints.minW, AisleConstraints.maxW, AisleConstraints.inc,
      AisleConstraints.forDensity]
    norm_num [pyRound, Int.fract]
  · rintro ⟨k, hk⟩
    rw [show ({} : AisleConstraints).inc = 1/2 from rfl] at hk
    have h5 : ((5 * k : ℤ) : ℚ) = 123 := by push_cast; linarith
    have h5i : (5 * k : ℤ) = 123 := by exact_mod_cast h5
    omega

/-! ## Claim C7 -/

/-- C7 (amended): on the scenario-A input (equipment bounds 12 and 14 ft, one
`main` aisle, no adjacent racks, increment 0.5, density optimization enabled)
the heuristic fallback returns width exactly 13.5 ft for the aisle — base
12 + 2 for a main aisle, −0.5 density adjustment — for every draw stream of
the geometry stub. -/
theorem aisle_heuristic_scenario_a_value (draws : ℕ → Bool) :
    aisleSolveHeuristic exLayoutA exEquipA {} draws = [⟨"a1", 27/2⟩] := by
  simp [aisleSolveHeuristic, aisleHeuristicGo, aisleHeuristicWidth, aisleTypeOf,
    exLayoutA, exEquipA, getAdjacentRacks, rackTypeAdjust,
    AisleConstraints.minW, AisleConstraints.maxW, AisleConstraints.inc,
    AisleConstraints.forDensity]
  norm_num [pyRound, Int.fract]

/-- Counterexample to C7 as stated: on the scenario-A input the heuristic
returns 13.5 ft, not 13.0 ft. -/
theorem aisle_heuristic_scenario_a_not_13 :
    aisleSolveHeuristic exLayoutA exEquipA {} drawsFalse = [⟨"a1", 27/2⟩] ∧
    (27/2 : ℚ) ≠ 13 := by
  constructor
  · simp [aisleSolveHeuristic, aisleHeuristicGo, aisleHeuristicWidth, aisleTypeOf,
      exLayoutA, exEquipA, getAdjacentRacks, rackTypeAdjust, drawsFalse,
      AisleConstraints.minW, AisleConstraints.maxW, AisleConstraints.inc,
      AisleConstraints.forDensity]
    norm_num [pyRound, Int.fract]
  · norm_num

/-! ## Claim C4 -/

/-- C4: the aisle-width heuristic is not deterministic — its output depends on
the outcomes of the `np.random.random() < 0.3` draws made by the geometry
stub `_check_intersection`.  With one standard aisle next to one drive-in
rack, an all-true draw stream yields width 13.5 ft while an all-false stream
yields 12.5 ft on otherwise identical inputs. -/
theorem aisle_heuristic_depends_on_random_draws :
    aisleSolveHeuristic exLayoutC4 exEquipA {} drawsTrue ≠
      aisleSolveHeuristic exLayoutC4 exEquipA {} drawsFalse := by
  have h1 : aisleSolveHeuristic exLayoutC4 exEquipA {} drawsTrue = [⟨"a1", 27/2⟩] := by
    simp [aisleSolveHeuristic, aisleHeuristicGo, aisleHeuristicWidth, aisleTypeOf,
      exLayoutC4, exEquipA, getAdjacentRacks, rackTypeAdjust, drawsTrue,
      AisleConstraints.minW, AisleConstraints.maxW, AisleConstraints.inc,
      AisleConstraints.forDensity]
    norm_num [pyRound, Int.fract]
  have h2 : aisleSolveHeuristic exLayoutC4 exEquipA {} drawsFalse = [⟨"a1", 25/2⟩] := by
    simp [aisleSolveHeuristic, aisleHeuristicGo, aisleHeuristicWidth, aisleTypeOf,
      exLayoutC4, exEquipA, getAdjacentRacks, rackTypeAdjust, drawsFalse,
      AisleConstraints.minW, AisleConstraints.maxW, AisleConstraints.inc,
      AisleConstraints.forDensity]
    norm_num [pyRound, Int.fract]
  rw [h1, h2]
  intro h
  simp only [List.cons.injEq, AisleEntry.mk.injEq] at h
  norm_num at h

/-! ## Claims C2 and C6 -/

/-- Products of spec scenario B: heights 48, 36 and 24 inches. -/
def exProductsB : List Product :=
  [ { id := "p48", length := 40, width := 40, height := 48, weight := 100
      velocity_class := "A", monthly_throughput := 0 },
    { id := "p36", length := 40, width := 40, height := 36, weight := 100
      velocity_class := "B", monthly_throughput := 0 },
    { id := "p24", length := 40, width := 40, height := 24, weight := 100
      velocity_class := "C", monthly_throughput := 0 } ]

/-- Equipment of spec scenario B: `reach_height = 288`. -/
def exEquipB : Equipment :=
  { reach_height := 288, min_aisle_width := 12, max_aisle_width := 14
    turning_radius := 0, lift_capacity := 0 }

/-- C2, violated by the code at the scenario-B input: the heuristic converts
`min_clearance` from inches to feet (6 → 0.5) but adds it to the raw product
heights, so with default constraints every consecutive gap of the returned
sequence is 48.5, strictly below the claimed lower bound
`max_product_height + min_clearance = 48 + 6 = 54`. -/
theorem elevation_heuristic_gap_below_clearance :
    elevationOptimizeHeuristicPath exProductsB exEquipB {} = [0, 97/2, 97, 291/2, 194] ∧
    (97/2 : ℚ) - 0 <
      maxQ (exProductsB.map Product.height) + ({} : ElevationConstraints).min_clearance.getD 6 := by
  constructor
  · simp [elevationOptimizeHeuristicPath, elevationHeuristic, exProductsB, exEquipB, maxQ]
    norm_num [pyInt]
    rw [show Int.toNat 5 = 5 from rfl]
    rw [show List.range 5 = [0,1,2,3,4] from rfl]
    norm_num
  · norm_num [exProductsB, maxQ]

/-- C6, violated by the code at the scenario-B input: with product heights
48, 36, 24, `min_clearance=6`, `min_beam_spacing=12`, `max_levels=4` and
reach height 288, the heuristic returns `[0, 48.5, 97, 145.5, 194]` (level
height `48 + 6/12 = 48.5`), not the claimed `[0, 54, 108, 162, 216]`. -/
theorem elevation_heuristic_scenario_b_value :
    elevationOptimizeHeuristicPath exProductsB exEquipB
      { min_clearance := some 6, min_beam_spacing := some 12, max_levels := some 4 } =
      [0, 97/2, 97, 291/2, 194] ∧
    ([0, 97/2, 97, 291/2, 194] : List ℚ) ≠ [0, 54, 108, 162, 216] := by
  constructor
  · simp [elevationOptimizeHeuristicPath, elevationHeuristic, exProductsB, exEquipB, maxQ]
    norm_num [pyInt]
    rw [show Int.toNat 5 = 5 from rfl]
    rw [show List.range 5 = [0,1,2,3,4] from rfl]
    norm_num
  · intro h
    simp only [List.cons.injEq] at h
    norm_num at h

/-! ## Claim C3: supporting lemmas -/

theorem filterMap_if_eq {α β : Type} (l : List α) (p : α → Bool) (g : α → β) :
    (l.filterMap fun x => if p x then some (g x) else none) = (l.filter p).map g := by
  induction l with
  | nil => rfl
  | cons a t ih =>
    by_cases h : p a <;> simp [List.filter_cons, List.filterMap_cons, h, ih]

theorem two_le_countP {α : Type} (l : List α) (p : α → Bool) (a b : α)
    (ha : a ∈ l) (hb : b ∈ l) (hne : a ≠ b)
    (hpa : p a = true) (hpb : p b = true) : 2 ≤ l.countP p := by
  induction l with
  | nil => simp at ha
  | cons c t ih =>
    rw [List.countP_cons]
    rcases List.mem_cons.mp ha with rfl | ha2
    · have hbt : b ∈ t := by
        rcases List.mem_cons.mp hb with rfl | h
        · exact absurd rfl hne
        · exact h
      have h1 : 0 < t.countP p := List.countP_pos.mpr ⟨b, hbt, hpb⟩
      rw [hpa]
      norm_num
      omega
    · rcases List.mem_cons.mp hb with rfl | hb2
      · have h1 : 0 < t.countP p := List.countP_pos.mpr ⟨a, ha2, hpa⟩
        rw [hpb]
        norm_num
        omega
      · have := ih ha2 hb2
        omega

theorem mem_insertDescBy {α : Type} (le : α → α → Bool) (x : α) (l : List α) (a : α) :
    a ∈ insertDescBy le x l ↔ a = x ∨ a ∈ l := by
  induction l with
  | nil => simp [insertDescBy]
  | cons y ys ih =>
    rw [insertDescBy]
    split
    · simp
    · simp only [List.mem_cons, ih]
      tauto

theorem mem_sortDescBy {α : Type} (le : α → α → Bool) (l : List α) (a : α) :
    a ∈ sortDescBy le l ↔ a ∈ l := by
  induction l with
  | nil => simp [sortDescBy]
  | cons x xs ih =>
    rw [sortDescBy, mem_insertDescBy]
    simp [ih]

/-- Every location generated by `_get_all_locations` lacks a `weight_limit`
key, so `_check_weight_limit` accepts every product on it. -/
theorem getAllLocations_weight_limit_none (layout : Layout) :
    ∀ loc ∈ getAllLocations layout, loc.prop_weight_limit = none := by
  intro loc h
  simp only [getAllLocations, locationsOfRack, List.mem_flatMap, List.mem_map] at h
  obtain ⟨r, -, ⟨bay, -, ⟨level, -, rfl⟩⟩⟩ := h
  rfl

theorem checkWeightLimit_of_none (p : Product) (loc : Location)
    (h : loc.prop_weight_limit = none) : checkWeightLimit p loc = true := by
  simp [checkWeightLimit, h]

theorem findFirstLocation_some (rd : Bool) (p : Product) (used : List String)
    (locs : List Location) (loc : Location)
    (h : findFirstLocation rd p used locs = some loc) :
    loc ∈ locs ∧ loc.id ∉ used ∧ (rd = true → productFitsLocation p loc = true) := by
  induction locs with
  | nil => simp [findFirstLocation] at h
  | cons l0 rest ih =>
    rw [findFirstLocation] at h
    split at h
    · have := ih h
      exact ⟨List.mem_cons_of_mem _ this.1, this.2⟩
    · split at h
      · have := ih h
        exact ⟨List.mem_cons_of_mem _ this.1, this.2⟩
      · rename_i hused hfits
        obtain rfl : l0 = loc := Option.some.inj h
        refine ⟨List.mem_cons_self _ _, hused, ?_⟩
        intro hrd
        by_contra hf
        exact hfits ⟨hrd, by simpa using hf⟩

theorem slottingAssignLoop_valid (rd : Bool) (locs : List Location) :
    ∀ (ps : List Product) (used : List String),
      ((slottingAssignLoop rd locs ps used).map Assignment.location_id).Nodup ∧
      (∀ a ∈ slottingAssignLoop rd locs ps used, a.location_id ∉ used) ∧
      (∀ a ∈ slottingAssignLoop rd locs ps used, ∃ p ∈ ps, ∃ loc ∈ locs,
        a.product_id = p.id ∧ a.location_id = loc.id ∧
        (rd = true → productFitsLocation p loc = true)) := by
  intro ps
  induction ps with
  | nil => intro used; simp [slottingAssignLoop]
  | cons p rest ih =>
    intro used
    rw [slottingAssignLoop]
    cases hfind : findFirstLocation rd p used locs with
    | none =>
      obtain ⟨ih1, ih2, ih3⟩ := ih used
      refine ⟨ih1, ih2, ?_⟩
      intro a ha
      obtain ⟨q, hq, rest'⟩ := ih3 a ha
      exact ⟨q, List.mem_cons_of_mem _ hq, rest'⟩
    | some loc =>
      obtain ⟨hmem, hunused, hfits⟩ := findFirstLocation_some rd p used locs loc hfind
      obtain ⟨ih1, ih2, ih3⟩ := ih (loc.id :: used)
      refine ⟨?_, ?_, ?_⟩
      · rw [List.map_cons, List.nodup_cons]
        refine ⟨?_, ih1⟩
        intro hcon
        obtain ⟨a, ha, haid⟩ := List.mem_map.mp hcon
        exact ih2 a ha (haid ▸ List.mem_cons_self _ _)
      · intro a ha
        rcases List.mem_cons.mp ha with rfl | ha2
        · exact hunused
        · exact fun hc => ih2 a ha2 (List.mem_cons_of_mem _ hc)
      · intro a ha
        rcases List.mem_cons.mp ha with rfl | ha2
        · exact ⟨p, List.mem_cons_self _ _, loc, hmem, rfl, rfl, hfits⟩
        · obtain ⟨q, hq, rest'⟩ := ih3 a ha2
          exact ⟨q, List.mem_cons_of_mem _ hq, rest'⟩

theorem enum_fst_lt {α : Type} {l : List α} {pe : ℕ × α} (h : pe ∈ l.enum) :
    pe.1 < l.length := by
  have := List.mem_enum_iff_get?.mp h
  obtain ⟨hlt, -⟩ := List.get?_eq_some.mp this
  exact hlt

theorem enum_id_inj (locs : List Location) (hids : (locs.map Location.id).Nodup)
    (le1 : ℕ × Location) (h1 : le1 ∈ locs.enum) (le2 : ℕ × Location)
    (h2 : le2 ∈ locs.enum) (heq : le1.2.id = le2.2.id) : le1 = le2 := by
  have g1 := List.mem_enum_iff_get?.mp h1
  have g2 := List.mem_enum_iff_get?.mp h2
  have m1 : (locs.map Location.id).get? le1.1 = some le1.2.id := by
    rw [List.get?_map, g1]; rfl
  have m2 : (locs.map Location.id).get? le2.1 = some le2.2.id := by
    rw [List.get?_map, g2]; rfl
  have hlt : le1.1 < (locs.map Location.id).length := by
    rw [List.length_map]
    exact (List.get?_eq_some.mp g1).1
  have hidx : le1.1 = le2.1 := by
    apply List.get?_inj hlt hids
    rw [m1, m2, heq]
  have hsnd : le1.2 = le2.2 := by
    rw [hidx] at g1
    rw [g1] at g2
    exact Option.some.inj g2
  exact Prod.ext hidx hsnd

theorem mem_mipExtract (products : List Product) (locs : List Location)
    (x : ℕ → ℕ → Bool) (a : Assignment) (ha : a ∈ mipExtract products locs x) :
    ∃ pe ∈ products.enum, ∃ le ∈ locs.enum,
      x pe.1 le.1 = true ∧ a = ⟨pe.2.id, le.2.id, 1⟩ := by
  unfold mipExtract at ha
  obtain ⟨pe, hpe, hin⟩ := List.mem_flatMap.mp ha
  obtain ⟨le, hle, hsome⟩ := List.mem_filterMap.mp hin
  by_cases hx : x pe.1 le.1 = true
  · rw [if_pos hx] at hsome
    exact ⟨pe, hpe, le, hle, hx, (Option.some.inj hsome).symm⟩
  · rw [if_neg hx] at hsome
    cases hsome

theorem mipExtract_map_loc (products : List Product) (locs : List Location)
    (x : ℕ → ℕ → Bool) :
    (mipExtract products locs x).map Assignment.location_id =
      products.enum.flatMap (fun pe =>
        (locs.enum.filter (fun le => x pe.1 le.1)).map (fun le => le.2.id)) := by
  unfold mipExtract
  rw [List.map_flatMap]
  congr 1
  funext pe
  rw [filterMap_if_eq locs.enum (fun le => x pe.1 le.1)
    (fun le => (⟨pe.2.id, le.2.id, 1⟩ : Assignment)), List.map_map]
  rfl

theorem mip_nodup_loc (products : List Product) (locs : List Location)
    (x : ℕ → ℕ → Bool) (hids : (locs.map Location.id).Nodup)
    (h1 : ∀ p < products.length, (List.range locs.length).countP (fun l => x p l) = 1)
    (h2 : ∀ l < locs.length, (List.range products.length).countP (fun p => x p l) ≤ 1) :
    ((mipExtract products locs x).map Assignment.location_id).Nodup := by
  rw [mipExtract_map_loc]
  rw [List.nodup_bind]
  constructor
  · intro pe hpe
    have hplt := enum_fst_lt hpe
    have hcount : locs.enum.countP (fun le => x pe.1 le.1) = 1 := by
      have hc := h1 pe.1 hplt
      rw [← List.enum_map_fst locs, List.countP_map] at hc
      exact hc
    have hlen : (locs.enum.filter (fun le => x pe.1 le.1)).length = 1 := by
      rw [← List.countP_eq_length_filter]
      exact hcount
    obtain ⟨a, ha⟩ := List.length_eq_one.mp hlen
    rw [ha]
    simp
  · have hfst : List.Pairwise
        (fun pe qe : ℕ × Product => pe ∈ products.enum ∧ qe ∈ products.enum ∧ pe.1 ≠ qe.1)
        products.enum := by
      have hnd : (products.enum.map Prod.fst).Nodup := by
        rw [List.enum_map_fst]
        exact List.nodup_range _
      have := List.pairwise_map.mp hnd
      exact (List.Pairwise.and_mem.mp this).imp (fun h => ⟨h.1, h.2.1, h.2.2⟩)
    refine hfst.imp ?_
    rintro pe qe ⟨hpe, hqe, hne⟩
    intro v hv1 hv2
    obtain ⟨le1, hle1, rfl⟩ := List.mem_map.mp hv1
    obtain ⟨le2, hle2, heq⟩ := List.mem_map.mp hv2
    obtain ⟨hle1m, hx1⟩ := List.mem_filter.mp hle1
    obtain ⟨hle2m, hx2⟩ := List.mem_filter.mp hle2
    have hle12 : le2 = le1 := enum_id_inj locs hids le2 hle2m le1 hle1m heq
    subst hle12
    have hllt := enum_fst_lt hle1m
    have h2l := h2 le2.1 hllt
    have hge := two_le_countP (List.range products.length) (fun p => x p le2.1)
      pe.1 qe.1 (List.mem_range.mpr (enum_fst_lt hpe)) (List.mem_range.mpr (enum_fst_lt hqe))
      hne hx1 hx2
    omega

/-! ## Claim C3: main theorem -/

/-- C3 (amended): for every layout and product list whose generated candidate
locations have pairwise-distinct ids, in any result of
`SlottingOptimizer.optimize` (MIP path or heuristic fallback) no location id
appears more than once, and when `respect_product_dimensions` is enabled
every assignment pairs a product with a generated location it fits in at
least one planar orientation, and when `respect_weight_limits` is enabled
every assignment respects the location weight check. -/
theorem slotting_optimize_output_valid (layout : Layout) (products : List Product)
    (c : SlottingConstraints) (res : List Assignment)
    (hids : ((getAllLocations layout).map Location.id).Nodup)
    (hres : SlottingOutcome layout products c res) :
    (res.map Assignment.location_id).Nodup ∧
    (c.respect_product_dimensions.getD true = true → ∀ a ∈ res, ∃ p ∈ products,
      ∃ loc ∈ getAllLocations layout, a.product_id = p.id ∧ a.location_id = loc.id ∧
        productFitsLocation p loc = true) ∧
    (c.respect_weight_limits.getD true = true → ∀ a ∈ res, ∃ p ∈ products,
      ∃ loc ∈ getAllLocations layout, a.product_id = p.id ∧ a.location_id = loc.id ∧
        checkWeightLimit p loc = true) := by
  rcases hres with ⟨-, rfl⟩ | ⟨x, hfeas, rfl⟩ | rfl
  · simp
  · obtain ⟨h1, h2, hdims, -⟩ := hfeas
    refine ⟨mip_nodup_loc products _ x hids h1 h2, ?_, ?_⟩
    · intro hrd a ha
      obtain ⟨pe, hpe, le, hle, hx, rfl⟩ := mem_mipExtract _ _ _ a ha
      refine ⟨pe.2, List.snd_mem_of_mem_enum hpe, le.2, List.snd_mem_of_mem_enum hle,
        rfl, rfl, ?_⟩
      by_cases hf : productFitsLocation pe.2 le.2 = true
      · exact hf
      · have := hdims hrd pe hpe le hle (Bool.not_eq_true _ ▸ hf)
        rw [this] at hx
        cases hx
    · intro hrw a ha
      obtain ⟨pe, hpe, le, hle, hx, rfl⟩ := mem_mipExtract _ _ _ a ha
      exact ⟨pe.2, List.snd_mem_of_mem_enum hpe, le.2, List.snd_mem_of_mem_enum hle,
        rfl, rfl, checkWeightLimit_of_none _ _
          (getAllLocations_weight_limit_none layout le.2 (List.snd_mem_of_mem_enum hle))⟩
  · by_cases hg : getAllLocations layout = [] ∨ products = []
    · simp [slottingSolveHeuristic, hg]
    · simp only [slottingSolveHeuristic, if_neg hg]
      obtain ⟨hnd, -, hmem⟩ := slottingAssignLoop_valid
        (c.respect_product_dimensions.getD true)
        (sortDescBy accessKeyLe (getAllLocations layout))
        (sortDescBy velocityKeyLe products) []
      refine ⟨hnd, ?_, ?_⟩
      · intro hrd a ha
        obtain ⟨p, hp, loc, hloc, hpid, hlid, hfit⟩ := hmem a ha
        exact ⟨p, (mem_sortDescBy velocityKeyLe products p).mp hp,
          loc, (mem_sortDescBy accessKeyLe _ loc).mp hloc, hpid, hlid, hfit hrd⟩
      · intro hrw a ha
        obtain ⟨p, hp, loc, hloc, hpid, hlid, -⟩ := hmem a ha
        have hlocmem := (mem_sortDescBy accessKeyLe _ loc).mp hloc
        exact ⟨p, (mem_sortDescBy velocityKeyLe products p).mp hp, loc, hlocmem,
          hpid, hlid, checkWeightLimit_of_none _ _
            (getAllLocations_weight_limit_none layout loc hlocmem)⟩

/-! ## Scenario C inputs and claims C5, C3 witness, C3 counterexample -/

/-- Rack of spec scenario C: selective, one bay, two beam levels, so exactly
two candidate locations of equal dimensions. -/
def exRackC : Rack :=
  { id := "r1", rack_type_id := "selective", bays := 1, height := 20
    configuration := { beam_levels := some 2 } }

/-- Layout of spec scenario C. -/
def exLayoutC : Layout := { id := "layout-c", racks := [exRackC], aisles := [] }

/-- Class-A product of scenario C (fits the 48×40×6 location dimensions). -/
def pA : Product :=
  { id := "pA", length := 40, width := 40, height := 5, weight := 100
    velocity_class := "A", monthly_throughput := 0 }

/-- Class-B product of scenario C. -/
def pB : Product :=
  { id := "pB", length := 40, width := 40, height := 5, weight := 100
    velocity_class := "B", monthly_throughput := 0 }

/-- Class-C product of scenario C. -/
def pC : Product :=
  { id := "pC", length := 40, width := 40, height := 5, weight := 100
    velocity_class := "C", monthly_throughput := 0 }

/-- C5, violated by the code at the scenario-C input: the heuristic sorts by
the raw `velocity_class` string in reverse, which puts class C first, so with
three products of classes A, B, C and two locations it assigns the class-C
product to the most accessible location and the class-B product to the next
one, and returns normally with the class-A product unassigned — the opposite
of the claimed priority. -/
theorem slotting_heuristic_assigns_class_c_first :
    slottingSolveHeuristic exLayoutC [pA, pB, pC] {} =
      [⟨"pC", "loc-r1-0-0", 1⟩, ⟨"pB", "loc-r1-0-1", 1⟩] := by
  have habs : |(1/2 : ℚ)| = 1/2 := abs_of_nonneg (by norm_num)
  have hid0 : "loc-" ++ "r1" ++ "-" ++ toString (0:ℕ) ++ "-" ++ toString (0:ℕ) =
    "loc-r1-0-0" := rfl
  have hid1 : "loc-" ++ "r1" ++ "-" ++ toString (0:ℕ) ++ "-" ++ toString (1:ℕ) =
    "loc-r1-0-1" := rfl
  norm_num [slottingSolveHeuristic, getAllLocations, locationsOfRack, exLayoutC, exRackC,
    calcLocationAccessibility, sortDescBy, insertDescBy, velocityKeyLe, accessKeyLe,
    pyStrLt, pyCharListLt, calcAccessibilityScore, pA, pB, pC, habs, hid0, hid1,
    slottingAssignLoop, findFirstLocation, productFitsLocation, List.range_succ]
  simp

/-- Witness for `slotting_optimize_output_valid`: the heuristic outcome on
the scenario-C input. -/
theorem slotting_optimize_output_valid_witness :
    ((slottingSolveHeuristic exLayoutC [pA, pB, pC] {}).map Assignment.location_id).Nodup ∧
    (({} : SlottingConstraints).respect_product_dimensions.getD true = true →
      ∀ a ∈ slottingSolveHeuristic exLayoutC [pA, pB, pC] {}, ∃ p ∈ [pA, pB, pC],
      ∃ loc ∈ getAllLocations exLayoutC, a.product_id = p.id ∧ a.location_id = loc.id ∧
        productFitsLocation p loc = true) ∧
    (({} : SlottingConstraints).respect_weight_limits.getD true = true →
      ∀ a ∈ slottingSolveHeuristic exLayoutC [pA, pB, pC] {}, ∃ p ∈ [pA, pB, pC],
      ∃ loc ∈ getAllLocations exLayoutC, a.product_id = p.id ∧ a.location_id = loc.id ∧
        checkWeightLimit p loc = true) := by
  refine slotting_optimize_output_valid exLayoutC [pA, pB, pC] {} _ ?_
    (Or.inr (Or.inr rfl))
  have htos0 : toString (0:ℕ) = "0" := rfl
  have htos1 : toString (1:ℕ) = "1" := rfl
  simp [getAllLocations, locationsOfRack, exLayoutC, exRackC, List.range_succ, htos0, htos1]

/-- Rack used twice in the duplicate-id counterexample layout. -/
def exRackDup : Rack :=
  { id := "r", rack_type_id := "selective", bays := 1, height := 20
    configuration := { beam_levels := some 1 } }

/-- Layout whose rack list contains the same rack id twice, so the generated
candidate locations carry duplicate ids. -/
def exLayoutDup : Layout := { id := "layout-d", racks := [exRackDup, exRackDup], aisles := [] }

/-- First product of the duplicate-id counterexample. -/
def q1 : Product :=
  { id := "q1", length := 40, width := 40, height := 5, weight := 100
    velocity_class := "A", monthly_throughput := 0 }

/-- Second product of the duplicate-id counterexample. -/
def q2 : Product :=
  { id := "q2", length := 40, width := 40, height := 5, weight := 100
    velocity_class := "B", monthly_throughput := 0 }

/-- Diagonal MIP assignment: product `p` to location index `p`. -/
def xDup : ℕ → ℕ → Bool := fun p l => p == l

/-- Counterexample to C3 as stated: on a layout whose two racks share the id
`"r"`, the two generated locations share the id `"loc-r-0-0"`, the diagonal
assignment satisfies every MIP constraint, and the extracted result repeats
the location id `"loc-r-0-0"`. -/
theorem slotting_duplicate_location_counterexample :
    SlottingOutcome exLayoutDup [q1, q2] {}
      (mipExtract [q1, q2] (getAllLocations exLayoutDup) xDup) ∧
    ¬ ((mipExtract [q1, q2] (getAllLocations exLayoutDup) xDup).map
        Assignment.location_id).Nodup := by
  have htos0 : toString (0:ℕ) = "0" := rfl
  have hlocs : getAllLocations exLayoutDup =
      [ { id := "loc-r-0-0", rack_id := "r", level := 0, position := 0, elevation := 0
          dim_length := 48, dim_width := 40, dim_height := 6, prop_rack_type := "selective"
          prop_accessibility := some (calcLocationAccessibility exRackDup 0 0)
          prop_weight_limit := none },
        { id := "loc-r-0-0", rack_id := "r", level := 0, position := 0, elevation := 0
          dim_length := 48, dim_width := 40, dim_height := 6, prop_rack_type := "selective"
          prop_accessibility := some (calcLocationAccessibility exRackDup 0 0)
          prop_weight_limit := none } ] := by
    simp [getAllLocations, locationsOfRack, exLayoutDup, exRackDup, List.range_succ, htos0]
  constructor
  · refine Or.inr (Or.inl ⟨xDup, ⟨?_, ?_, ?_, ?_⟩, rfl⟩)
    · intro p hp
      rw [hlocs]
      simp only [List.length_cons, List.length_nil] at hp
      interval_cases p <;> simp [xDup, List.range_succ]
    · intro l hl
      rw [hlocs] at hl
      simp only [List.length_cons, List.length_nil] at hl
      interval_cases l <;> simp [xDup, List.range_succ]
    · intro hx pe hpe le hle hff
      exfalso
      rw [hlocs] at hle
      simp [List.enum] at hpe hle
      rcases hpe with ⟨rfl, rfl⟩ | ⟨rfl, rfl⟩ <;>
        rcases hle with ⟨rfl, rfl⟩ | ⟨rfl, rfl⟩ <;>
        norm_num [productFitsLocation, q1, q2] at hff
    · intro hx pe hpe le hle hff
      exfalso
      rw [hlocs] at hle
      simp [List.enum] at hle
      rcases hle with ⟨rfl, rfl⟩ | ⟨rfl, rfl⟩ <;>
        simp [checkWeightLimit] at hff
  · rw [hlocs]
    intro hnd
    simp [mipExtract, List.enum, xDup, q1, q2] at hnd

/-! ## Claims C8, C9, C10 -/

/-- Elevation optimizer call whose CP attempt failed, so the deterministic
heuristic produced the returned value (the call returns normally). -/
def elevOptViaHeuristic :
    Rack → List Product → Equipment → ElevationConstraints → Except String (List ℚ) :=
  fun _ products e c => .ok (elevationOptimizeHeuristicPath products e c)

/-- C8: `optimize_rack_elevations` raises the rack-not-found `ValueError`
exactly when the rack id matches no rack of the layout; in that case the
raise happens before any mutation, so the layout is unchanged, and when the
rack id is present no rack-not-found error can be the outcome (whatever the
elevation optimizer call returns or raises). -/
theorem engine_rack_elevations_unknown_id_fatal (layout : Layout) (rackId : String)
    (products : List Product) (e : Equipment) (params : ElevationConstraints)
    (elevOpt : Rack → List Product → Equipment → ElevationConstraints → Except String (List ℚ)) :
    (rackId ∉ layout.racks.map Rack.id →
      engineOptimizeRackElevations layout rackId products e params elevOpt =
        (.error (.rackNotFound rackId), layout)) ∧
    (rackId ∈ layout.racks.map Rack.id →
      ∀ m : String, (engineOptimizeRackElevations layout rackId products e params elevOpt).1 ≠
        .error (.rackNotFound m)) := by
  constructor
  · intro h
    have hf : layout.racks.find? (fun r => r.id = rackId) = none := by
      rw [List.find?_eq_none]
      intro r hr
      simp only [decide_eq_true_eq]
      intro heq
      exact h (List.mem_map.mpr ⟨r, hr, heq⟩)
    unfold engineOptimizeRackElevations
    rw [hf]
  · intro h m
    obtain ⟨r, hr, heq⟩ := List.mem_map.mp h
    have hsome : ∃ x, layout.racks.find? (fun r => r.id = rackId) = some x := by
      rw [← Option.isSome_iff_exists, List.find?_isSome]
      exact ⟨r, hr, by simp [heq]⟩
    obtain ⟨r0, hr0⟩ := hsome
    unfold engineOptimizeRackElevations
    rw [hr0]
    rcases he : elevOpt r0 products e params with msg | els <;> simp [he]

/-- Witness for `engine_rack_elevations_unknown_id_fatal`: an unknown id
`"zz"` errors and leaves the one-rack layout untouched; the present id
`"r1"` never produces the rack-not-found error. -/
theorem engine_rack_elevations_unknown_id_fatal_witness :
    engineOptimizeRackElevations exLayoutC "zz" exProductsB exEquipB {} elevOptViaHeuristic =
      (.error (.rackNotFound "zz"), exLayoutC) ∧
    (engineOptimizeRackElevations exLayoutC "r1" exProductsB exEquipB {}
        elevOptViaHeuristic).1 ≠ .error (.rackNotFound "r1") := by
  constructor
  · exact (engine_rack_elevations_unknown_id_fatal exLayoutC "zz" exProductsB exEquipB {}
      elevOptViaHeuristic).1 (by simp [exLayoutC, exRackC])
  · exact (engine_rack_elevations_unknown_id_fatal exLayoutC "r1" exProductsB exEquipB {}
      elevOptViaHeuristic).2 (by simp [exLayoutC, exRackC]) "r1"

/-- The per-rack elevation stage of `optimize_layout` maintains the invariant
`beam_levels = len(beam_elevations) - 1` on every rack it processes. -/
theorem engineElevationStage_beam_levels (layout : Layout) (products : List Product)
    (e : Equipment) (params : ElevationConstraints)
    (elevOpt : Rack → List Product → Equipment → ElevationConstraints → List ℚ) :
    ∀ r ∈ (engineElevationStage layout products e params elevOpt).racks,
      ∃ els : List ℚ, r.configuration.beam_elevations = some els ∧
        r.configuration.beam_levels = some ((els.length : ℤ) - 1) := by
  intro r hr
  simp only [engineElevationStage, List.mem_map] at hr
  obtain ⟨r0, -, rfl⟩ := hr
  exact ⟨_, rfl, rfl⟩

/-- C9, violated by the code: the single-rack entry point
`optimize_rack_elevations` updates `beam_elevations` but never touches
`beam_levels`.  On a rack whose configuration starts with `beam_levels = 2`,
the call stores five new elevations yet leaves `beam_levels = 2 ≠ 5 - 1`. -/
theorem engine_single_rack_stale_beam_levels :
    ((engineOptimizeRackElevations exLayoutC "r1" exProductsB exEquipB {}
        elevOptViaHeuristic).2).racks.map
        (fun r => (r.configuration.beam_levels, r.configuration.beam_elevations.map List.length)) =
      [(some 2, some 5)] ∧ (2 : ℤ) ≠ (5 : ℤ) - 1 := by
  constructor
  · have hels : elevationOptimizeHeuristicPath exProductsB exEquipB {} =
        [0, 97/2, 97, 291/2, 194] := by
      simp [elevationOptimizeHeuristicPath, elevationHeuristic, exProductsB, exEquipB, maxQ]
      norm_num [pyInt]
      rw [show Int.toNat 5 = 5 from rfl]
      rw [show List.range 5 = [0,1,2,3,4] from rfl]
      norm_num
    simp [engineOptimizeRackElevations, elevOptViaHeuristic, hels, exLayoutC, exRackC,
      updateFirstRack, setBeamElevations]
  · norm_num

/-- C10: `evaluate_layout` neither mutates the layout nor draws randomness:
its metrics are a function of the layout state alone, so a second call on the
state left by a first call returns the same metrics. -/
theorem evaluate_layout_idempotent (layout : Layout) (products : List Product) :
    (evaluateLayout ((evaluateLayout layout products).2) products).1 =
      (evaluateLayout layout products).1 ∧
    (evaluateLayout layout products).2 = layout := by
  unfold evaluateLayout
  by_cases h : products = [] <;> simp [h]

end RackOptix
